import Mathlib

/-!
Shallow embedding of the print-webapp backend core:
the page-range parser, odd/even page selection and N-up composition from
src/backend/src/services/pdf-processor.ts, and the print-job coordinator
state machine from src/backend/src/server.ts.
-/

namespace PrintWebapp

/-! ### JavaScript parseInt model

`parseInt(s)` (radix unspecified): skip leading whitespace, optional sign,
then either a hex literal after a 0x/0X marker or a maximal decimal digit
run; NaN (here: `none`) when no digit is found. -/

def isDecDigit (c : Char) : Bool := '0' ≤ c ∧ c ≤ '9'

def isHexDigit (c : Char) : Bool :=
  ('0' ≤ c ∧ c ≤ '9') ∨ ('a' ≤ c ∧ c ≤ 'f') ∨ ('A' ≤ c ∧ c ≤ 'F')

def hexVal (c : Char) : Nat :=
  if '0' ≤ c ∧ c ≤ '9' then c.toNat - '0'.toNat
  else if 'a' ≤ c ∧ c ≤ 'f' then c.toNat - 'a'.toNat + 10
  else c.toNat - 'A'.toNat + 10

def takeDigitRun (digit : Char → Bool) : List Char → List Char
  | [] => []
  | c :: cs => if digit c then c :: takeDigitRun digit cs else []

def digitsToNat (base : Nat) (ds : List Char) : Nat :=
  ds.foldl (fun acc c => acc * base + hexVal c) 0

def jsParseIntCore (cs : List Char) : Option Int :=
  let (sign, body) : Int × List Char :=
    match cs with
    | '-' :: rest => (-1, rest)
    | '+' :: rest => (1, rest)
    | rest => (1, rest)
  match body with
  | '0' :: 'x' :: rest =>
      let ds := takeDigitRun isHexDigit rest
      if ds = [] then none else some (sign * digitsToNat 16 ds)
  | '0' :: 'X' :: rest =>
      let ds := takeDigitRun isHexDigit rest
      if ds = [] then none else some (sign * digitsToNat 16 ds)
  | _ =>
      let ds := takeDigitRun isDecDigit body
      if ds = [] then none else some (sign * digitsToNat 10 ds)

/-- The whitespace characters relevant to `String.prototype.trim` on the
ASCII inputs this parser sees. -/
def isSpaceChar (c : Char) : Bool := c = ' ' ∨ c = '\t' ∨ c = '\n' ∨ c = '\r'

def jsTrim (cs : List Char) : List Char :=
  ((cs.dropWhile isSpaceChar).reverse.dropWhile isSpaceChar).reverse

def jsParseInt (s : String) : Option Int :=
  jsParseIntCore (jsTrim s.toList)

/-- Model of `String.prototype.split(sep)` for a single-character separator:
`"" → [""]`, separators at the ends produce empty components. -/
def splitOnChar (sep : Char) : List Char → List (List Char)
  | [] => [[]]
  | c :: cs =>
      if c = sep then [] :: splitOnChar sep cs
      else
        match splitOnChar sep cs with
        | t :: ts => (c :: t) :: ts
        | [] => [[c]]

/-! ### parsePageRange (pdf-processor.ts lines 25-44) -/

/-- The `for (let i = start; i <= Math.min(end, totalPages); i++) if (i >= 1)`
loop body of a hyphenated token; `none` models NaN, for which the loop
condition is false and zero iterations run. -/
def rangePages (start stop : Option Int) (totalPages : Nat) : List Int :=
  match start, stop with
  | some s, some e =>
      let hi := min e (totalPages : Int)
      if s ≤ hi then
        ((List.range (hi - s + 1).toNat).map (fun (k : Nat) => s + (k : Int))).filter (1 ≤ ·)
      else []
  | _, _ => []

/-- Singleton token: included only when `1 <= pageNum <= totalPages`. -/
def singletonPages (v : Option Int) (totalPages : Nat) : List Int :=
  match v with
  | some p => if 1 ≤ p ∧ p ≤ totalPages then [p] else []
  | none => []

/-- One comma-separated part of the range expression. A part containing a
hyphen is split on the hyphen and only the first two components are bound
by the `[start, end]` destructuring; a missing second component is JS
`undefined`, i.e. NaN after `parseInt`. -/
def parseTokenChars (part : List Char) (totalPages : Nat) : List Int :=
  if part.contains '-' then
    match (splitOnChar '-' part).map (fun n => jsParseIntCore (jsTrim n)) with
    | s :: e :: _ => rangePages s e totalPages
    | [s] => rangePages s none totalPages
    | [] => []
  else singletonPages (jsParseIntCore part) totalPages

def parseToken (part : String) (totalPages : Nat) : List Int :=
  parseTokenChars part.toList totalPages

/-- Model of `[...new Set(pages)].sort((a, b) => a - b)`: deduplicate, then numeric
ascending sort. The sorted result depends only on the set of values, so the
dedup order is immaterial. -/
def parsePageRange (range : String) (totalPages : Nat) : List Int :=
  List.insertionSort (· ≤ ·)
    (((splitOnChar ',' range.toList).map jsTrim).flatMap
      (fun p => parseTokenChars p totalPages)).dedup

/-! ### Page selection (pdf-processor.ts lines 49-73)

A document is modelled as its list of page contents (abstract `Nat` ids);
page numbers are 1-based. -/

inductive PageParity | odd | even
deriving DecidableEq, Repr

/-- Computation of `pagesToProcess`: the parsed range when one is given, else the full
sequence `1..totalPages` (lines 59-64). -/
def basePages (totalPages : Nat) (pageRange : Option String) : List Int :=
  match pageRange with
  | some r => parsePageRange r totalPages
  | none => (List.range totalPages).map (fun (i : Nat) => (i : Int) + 1)

def parityMatches (t : PageParity) (p : Int) : Bool :=
  match t with
  | .odd => p % 2 == 1
  | .even => p % 2 == 0

/-- The residue mod 2 a page number must have to match a parity. -/
def parityBit : PageParity → Int
  | .odd => 1
  | .even => 0

/-- Computation of `filteredPages` (lines 67-73): parity filter applied after the range
restriction. -/
def selectPages (totalPages : Nat) (pageRange : Option String) (t : PageParity) : List Int :=
  (basePages totalPages pageRange).filter (parityMatches t)

/-- Model of `extractOddEvenPages`: copy the selected pages, in order, into a fresh
document (lines 75-80; `copyPages` at 0-based index `pageNum - 1`). -/
def extractOddEvenPages (doc : List Nat) (t : PageParity) (pageRange : Option String) : List Nat :=
  (selectPages doc.length pageRange t).map (fun i => doc.getD (i - 1).toNat 0)

/-- Model of `extractPageRange` (lines 177-198): copy the parsed range, in order. -/
def extractPageRange (doc : List Nat) (pageRange : String) : List Nat :=
  (parsePageRange pageRange doc.length).map (fun i => doc.getD (i - 1).toNat 0)

/-! ### N-up composition (pdf-processor.ts lines 97-172) -/

inductive NUp | two | four
deriving DecidableEq, Repr

def pagesPerSheet : NUp → Nat
  | .two => 2
  | .four => 4

def cols : NUp → Nat
  | .two => 2
  | .four => 2

def rowsOf : NUp → Nat
  | .two => 1
  | .four => 2

/-- The outer loop `for (i = 0; i < len; i += pagesPerSheet)` with inner
loop `for (j = 0; j < pagesPerSheet && i + j < len; j++)`: consecutive
chunks of at most `k` pages, one chunk per output sheet. -/
def chunkPages (k : Nat) : List α → List (List α)
  | [] => []
  | x :: xs => (x :: xs.take (k - 1)) :: chunkPages k (xs.drop (k - 1))
termination_by l => l.length
decreasing_by simp [List.length_drop]; omega

/-- The sheets produced by `createNUpLayout`: the (optionally
range-restricted) pages of the source document, grouped per sheet. -/
def createNUpSheets (doc : List Nat) (l : NUp) (pageRange : Option String) : List (List Nat) :=
  chunkPages (pagesPerSheet l)
    ((basePages doc.length pageRange).map (fun i => doc.getD (i - 1).toNat 0))

/-! ### Cell geometry (pdf-processor.ts lines 117-160), exact arithmetic
over ℚ. -/

def sheetWidth : ℚ := 842

def sheetHeight : ℚ := 595

def cellWidth (l : NUp) : ℚ := sheetWidth / (cols l : ℚ)

def cellHeight (l : NUp) : ℚ := sheetHeight / (rowsOf l : ℚ)

structure Placement where
  col : Nat
  row : Nat
  scale : ℚ
  x : ℚ
  y : ℚ
  w : ℚ
  h : ℚ
deriving Repr

/-- The placement of the `j`-th page of a sheet (inner-loop body, lines
142-160): row-major cell, uniform 95% fit scale, centred in the cell. -/
def placeCell (l : NUp) (j : Nat) (pw ph : ℚ) : Placement :=
  let c := j % cols l
  let r := j / cols l
  let scale := min (cellWidth l / pw) (cellHeight l / ph) * (95 / 100)
  { col := c
    row := r
    scale := scale
    x := (c : ℚ) * cellWidth l + (cellWidth l - pw * scale) / 2
    y := sheetHeight - ((r : ℚ) + 1) * cellHeight l + (cellHeight l - ph * scale) / 2
    w := pw * scale
    h := ph * scale }

/-! ### Print-job coordinator (server.ts) -/

inductive Layout | oneUp | twoUp | fourUp
deriving DecidableEq, Repr

structure PrintSettings where
  duplex : Bool
  layout : Layout
  pageRange : Option String := none
  copies : Option Nat := none
deriving DecidableEq, Repr

inductive JobStatus | pending | processing | completed | failed | awaitingEvenPages
deriving DecidableEq, Repr

structure PrintJob where
  id : String
  status : JobStatus
  message : Option String := none
  totalPages : Option Nat := none
  currentStep : Option PageParity := none
deriving DecidableEq, Repr

/-- The in-memory `printJobs` map (server.ts line 41). -/
def JobTable := List (String × PrintJob)

def findJob : JobTable → String → Option PrintJob
  | [], _ => none
  | (k, j) :: rest, k' => if k = k' then some j else findJob rest k'

def setJob : JobTable → String → PrintJob → JobTable
  | [], k, j => [(k, j)]
  | (k0, j0) :: rest, k, j =>
      if k0 = k then (k, j) :: rest else (k0, j0) :: setJob rest k j

/-- A document handed to the spooler: either a plain page sequence or the
sheets of an N-up composite. -/
inductive Doc
  | plain (pages : List Nat)
  | sheets (ss : List (List Nat))
deriving DecidableEq, Repr

structure CupsRequest where
  doc : Doc
  jobName : String
  copies : Nat
deriving DecidableEq, Repr

inductive ApiResult | ok | badRequest | notFound | serverError
deriving DecidableEq, Repr

structure HandlerOutcome where
  jobs : JobTable
  submitted : Option CupsRequest
  result : ApiResult

/-- POST /api/print (server.ts lines 84-188). `file` is the uploaded
document when it exists; `cupsOk` models whether the spooler submission
succeeds (its failure raises, landing in the catch block at lines 184-187,
which only reports a server error and touches no job state). -/
def handlePrint (file : Option (List Nat)) (filename : String) (s : PrintSettings)
    (jobId : String) (cupsOk : Bool) (jobs : JobTable) : HandlerOutcome :=
  match file with
  | none => ⟨jobs, none, .notFound⟩
  | some doc =>
    let step1 : Doc × JobTable :=
      if s.duplex then
        (Doc.plain (extractOddEvenPages doc .odd s.pageRange),
         setJob jobs jobId ⟨jobId, .processing, some "Printing odd pages...", none, some .odd⟩)
      else
        match s.layout with
        | .twoUp =>
            (Doc.sheets (createNUpSheets doc .two s.pageRange),
             setJob jobs jobId ⟨jobId, .processing, some "Creating 2-up layout...", none, none⟩)
        | .fourUp =>
            (Doc.sheets (createNUpSheets doc .four s.pageRange),
             setJob jobs jobId ⟨jobId, .processing, some "Creating 4-up layout...", none, none⟩)
        | .oneUp =>
            match s.pageRange with
            | some r =>
                (Doc.plain (extractPageRange doc r),
                 setJob jobs jobId ⟨jobId, .processing, some "Extracting page range...", none, none⟩)
            | none =>
                (Doc.plain doc,
                 setJob jobs jobId ⟨jobId, .processing, some "Sending to printer...", none, none⟩)
    let req : CupsRequest := ⟨step1.1, "Print Job - " ++ filename, s.copies.getD 1⟩
    if cupsOk then
      let finalJobs :=
        if s.duplex then
          setJob step1.2 jobId
            ⟨jobId, .awaitingEvenPages,
             some "Odd pages sent to printer. Please flip the paper and print even pages.",
             some doc.length, some .even⟩
        else
          setJob step1.2 jobId ⟨jobId, .completed, some "Print job submitted successfully", none, none⟩
      ⟨finalJobs, some req, .ok⟩
    else ⟨step1.2, some req, .serverError⟩

/-- POST /api/print-even (server.ts lines 193-246). The page range comes
from the resume request body; the job table stores no range. -/
def handlePrintEven (file : Option (List Nat)) (jobId filename : String)
    (pageRange : Option String) (copies : Option Nat) (cupsOk : Bool)
    (jobs : JobTable) : HandlerOutcome :=
  match findJob jobs jobId with
  | none => ⟨jobs, none, .badRequest⟩
  | some job =>
    if job.status = .awaitingEvenPages then
      match file with
      | none => ⟨jobs, none, .notFound⟩
      | some doc =>
        let req : CupsRequest :=
          ⟨Doc.plain (extractOddEvenPages doc .even pageRange),
           "Print Job - " ++ filename ++ " (Even Pages)", copies.getD 1⟩
        if cupsOk then
          ⟨setJob jobs jobId ⟨jobId, .completed, some "Duplex printing completed", none, none⟩,
           some req, .ok⟩
        else ⟨jobs, some req, .serverError⟩
    else ⟨jobs, none, .badRequest⟩

/-! ## Helper lemmas -/

theorem mem_rangePages {st e : Option Int} {n : Nat} {p : Int}
    (h : p ∈ rangePages st e n) : 1 ≤ p ∧ p ≤ (n : Int) := by
  match st, e with
  | none, none => simp [rangePages] at h
  | none, some _ => simp [rangePages] at h
  | some _, none => simp [rangePages] at h
  | some s, some e0 =>
    simp only [rangePages] at h
    generalize hM : min e0 (n : Int) = M at h
    have hMn : M ≤ (n : Int) := hM ▸ min_le_right _ _
    split at h
    · rename_i hle
      simp only [List.mem_filter, List.mem_map, List.mem_range,
        decide_eq_true_eq] at h
      obtain ⟨⟨k, hk, rfl⟩, hp⟩ := h
      refine ⟨hp, ?_⟩
      omega
    · simp at h

theorem mem_singletonPages {v : Option Int} {n : Nat} {p : Int}
    (h : p ∈ singletonPages v n) : 1 ≤ p ∧ p ≤ (n : Int) := by
  match v with
  | none => simp [singletonPages] at h
  | some q =>
    simp only [singletonPages] at h
    split at h
    · simp only [List.mem_singleton] at h
      subst h
      omega
    · simp at h

theorem mem_parseTokenChars {part : List Char} {n : Nat} {p : Int}
    (h : p ∈ parseTokenChars part n) : 1 ≤ p ∧ p ≤ (n : Int) := by
  unfold parseTokenChars at h
  split at h
  · split at h
    · exact mem_rangePages h
    · exact mem_rangePages h
    · simp at h
  · exact mem_singletonPages h

theorem mem_parsePageRange {r : String} {n : Nat} {p : Int}
    (h : p ∈ parsePageRange r n) : 1 ≤ p ∧ p ≤ (n : Int) := by
  unfold parsePageRange at h
  rw [(List.perm_insertionSort _ _).mem_iff, List.mem_dedup,
    List.mem_flatMap] at h
  obtain ⟨part, _, hp⟩ := h
  exact mem_parseTokenChars hp

theorem sortedDedup_sorted (l : List Int) :
    List.Sorted (· < ·) (List.insertionSort (· ≤ ·) l.dedup) := by
  refine List.Sorted.lt_of_le (List.sorted_insertionSort _ _) ?_
  exact (List.perm_insertionSort (· ≤ ·) l.dedup).symm.nodup (List.nodup_dedup l)

theorem parsePageRange_sorted (r : String) (n : Nat) :
    List.Sorted (· < ·) (parsePageRange r n) := by
  unfold parsePageRange
  exact sortedDedup_sorted _

theorem basePages_sorted (n : Nat) (r : Option String) :
    List.Sorted (· < ·) (basePages n r) := by
  match r with
  | some s => exact parsePageRange_sorted s n
  | none =>
    simp only [basePages]
    refine List.Pairwise.map _ ?_ (List.pairwise_lt_range n)
    intro a b hab
    omega

theorem mem_basePages {n : Nat} {r : Option String} {p : Int}
    (h : p ∈ basePages n r) : 1 ≤ p ∧ p ≤ (n : Int) := by
  match r with
  | some s => exact mem_parsePageRange h
  | none =>
    simp only [basePages, List.mem_map, List.mem_range] at h
    obtain ⟨k, hk, rfl⟩ := h
    omega

theorem selectPages_sorted (n : Nat) (r : Option String) (t : PageParity) :
    List.Sorted (· < ·) (selectPages n r t) :=
  (basePages_sorted n r).filter _

theorem mem_selectPages {n : Nat} {r : Option String} {t : PageParity} {p : Int} :
    p ∈ selectPages n r t ↔ p ∈ basePages n r ∧ p % 2 = parityBit t := by
  unfold selectPages
  rw [List.mem_filter]
  match t with
  | .odd => simp [parityMatches, parityBit]
  | .even => simp [parityMatches, parityBit]

theorem pagesPerSheet_pos (l : NUp) : 0 < pagesPerSheet l := by
  cases l <;> decide

theorem chunkPages_length (k : Nat) (hk : 0 < k) :
    ∀ l : List α, (chunkPages k l).length = (l.length + k - 1) / k
  | [] => by
      simp only [chunkPages, List.length_nil]
      rw [Nat.div_eq_of_lt (by omega)]
  | x :: xs => by
      rw [chunkPages]
      simp only [List.length_cons, List.length_drop,
        chunkPages_length k hk (xs.drop (k - 1))]
      rcases le_or_lt (k - 1) xs.length with hle | hlt
      · have h1 : xs.length - (k - 1) + k - 1 = xs.length := by omega
        have h2 : xs.length + 1 + k - 1 = xs.length + k := by omega
        rw [h1, h2, Nat.add_div_right _ hk]
      · have h1 : xs.length - (k - 1) + k - 1 = k - 1 := by omega
        have h2 : xs.length + 1 + k - 1 = xs.length + k := by omega
        rw [h1, h2, Nat.add_div_right _ hk,
          Nat.div_eq_of_lt (by omega), Nat.div_eq_of_lt (by omega)]
termination_by l => l.length
decreasing_by simp [List.length_drop]; omega

theorem chunkPages_flatten (k : Nat) (hk : 0 < k) :
    ∀ l : List α, (chunkPages k l).flatten = l
  | [] => by simp [chunkPages]
  | x :: xs => by
      rw [chunkPages, List.flatten_cons,
        chunkPages_flatten k hk (xs.drop (k - 1)), List.cons_append,
        List.take_append_drop]
termination_by l => l.length
decreasing_by simp [List.length_drop]; omega

theorem findJob_setJob (tbl : JobTable) (k : String) (j : PrintJob) :
    findJob (setJob tbl k j) k = some j := by
  induction tbl with
  | nil => simp [setJob, findJob]
  | cons hd tl ih =>
      obtain ⟨k0, j0⟩ := hd
      by_cases h : k0 = k
      · subst h
        simp [setJob, findJob]
      · simp [setJob, findJob, h, ih]

/-! ## Claim theorems -/

/-- C3: for every range expression and every `totalPages`, `parsePageRange`
returns a strictly ascending, duplicate-free list of pages in
`[1, totalPages]`, and `parse("1-5,8,11-13", 20) = [1,2,3,4,5,8,11,12,13]`. -/
theorem parse_ascending_dedup_bounded :
    (∀ (r : String) (n : Nat),
        List.Sorted (· < ·) (parsePageRange r n) ∧
        ∀ p : Int, p ∈ parsePageRange r n → 1 ≤ p ∧ p ≤ (n : Int)) ∧
    parsePageRange "1-5,8,11-13" 20 = [1, 2, 3, 4, 5, 8, 11, 12, 13] := by
  refine ⟨fun r n => ⟨parsePageRange_sorted r n, fun p hp => mem_parsePageRange hp⟩, ?_⟩
  decide

theorem parse_ascending_dedup_bounded_witness :
    3 ∈ parsePageRange "1-5,8,11-13" 20 ∧ 1 ≤ (3 : Int) ∧ (3 : Int) ≤ (20 : Int) :=
  ⟨by decide, (parse_ascending_dedup_bounded.1 "1-5,8,11-13" 20).2 3 (by decide)⟩

/-- C4: the parser is total and lenient: a token that does not parse as an
integer contributes no pages (both in singleton and hyphenated position), a
pair with `start > end` yields no pages, and the documented examples hold:
`parse("3-1", 10) = []`, `parse("0,5,100", 10) = [5]`. -/
theorem parse_lenient_total :
    (∀ (part : List Char) (n : Nat), part.contains '-' = false →
        jsParseIntCore part = none → parseTokenChars part n = []) ∧
    (∀ (part : List Char) (n : Nat) (s e : Option Int) (rest : List (Option Int)),
        part.contains '-' = true →
        (splitOnChar '-' part).map (fun x => jsParseIntCore (jsTrim x)) = s :: e :: rest →
        (s = none ∨ e = none) → parseTokenChars part n = []) ∧
    (∀ (s e : Int) (n : Nat), e < s → rangePages (some s) (some e) n = []) ∧
    parsePageRange "3-1" 10 = [] ∧
    parsePageRange "0,5,100" 10 = [5] := by
  refine ⟨?_, ?_, ?_, by decide, by decide⟩
  · intro part n hc hp
    unfold parseTokenChars
    rw [hc]
    simp only [Bool.false_eq_true, if_false]
    simp [singletonPages, hp]
  · intro part n s e rest hc hsplit hne
    unfold parseTokenChars
    rw [hc]
    simp only [if_true]
    rw [hsplit]
    rcases hne with rfl | rfl
    · rfl
    · match s with
      | none => rfl
      | some _ => rfl
  · intro s e n h
    simp only [rangePages]
    have hmin : min e (n : Int) ≤ e := min_le_left _ _
    rw [if_neg (by omega)]

theorem parse_lenient_total_witness :
    parseTokenChars "abc".toList 10 = [] ∧
    parseTokenChars "abc-def".toList 10 = [] ∧
    rangePages (some 3) (some 1) 10 = [] :=
  ⟨parse_lenient_total.1 "abc".toList 10 (by decide) (by decide),
   parse_lenient_total.2.1 "abc-def".toList 10 none none [] (by decide) (by decide) (Or.inl rfl),
   parse_lenient_total.2.2.1 3 1 10 (by decide)⟩

/-- C5: page selection filters by parity after the range restriction: the
result is exactly the (range-restricted or full) base set restricted to the
requested parity, in ascending order; `select(10, undefined, odd) =
[1,3,5,7,9]` and `select(10, "2-6", odd) = [3,5]`. -/
theorem select_parity_after_range :
    (∀ (n : Nat) (r : Option String) (t : PageParity),
        List.Sorted (· < ·) (selectPages n r t) ∧
        ∀ p : Int, p ∈ selectPages n r t ↔ p ∈ basePages n r ∧ p % 2 = parityBit t) ∧
    selectPages 10 none .odd = [1, 3, 5, 7, 9] ∧
    selectPages 10 (some "2-6") .odd = [3, 5] :=
  ⟨fun n r t => ⟨selectPages_sorted n r t, fun _ => mem_selectPages⟩,
   by decide, by decide⟩

/-- C10: a token with more than one hyphen is interpreted from its first two
hyphen-separated components only, the rest being ignored; in particular
`"1-3-5"` with `totalPages = 10` contributes pages 1, 2 and 3. -/
theorem hyphen_token_uses_first_two_components :
    (∀ (part : List Char) (n : Nat) (s e : Option Int) (rest : List (Option Int)),
        part.contains '-' = true →
        (splitOnChar '-' part).map (fun x => jsParseIntCore (jsTrim x)) = s :: e :: rest →
        parseTokenChars part n = rangePages s e n) ∧
    parsePageRange "1-3-5" 10 = [1, 2, 3] := by
  refine ⟨?_, by decide⟩
  intro part n s e rest hc hsplit
  unfold parseTokenChars
  rw [hc]
  simp only [if_true]
  rw [hsplit]

theorem hyphen_token_uses_first_two_components_witness :
    parseTokenChars "1-3-5".toList 10 = rangePages (some 1) (some 3) 10 :=
  hyphen_token_uses_first_two_components.1 "1-3-5".toList 10 (some 1) (some 3)
    [some 5] (by decide) (by decide)

/-- C6: N-up composition emits exactly `ceil(len / cellsPerSheet)` sheets,
every selected page appears on its sheet in order with nothing added (so a
short final chunk leaves cells blank rather than erroring or padding); 5
source pages at 4 cells per sheet give 2 sheets, the second with 1
populated cell and 3 blank cells. -/
theorem composeNUp_sheet_count :
    (∀ (l : NUp) (pages : List Nat),
        (chunkPages (pagesPerSheet l) pages).length
          = (pages.length + pagesPerSheet l - 1) / pagesPerSheet l ∧
        (chunkPages (pagesPerSheet l) pages).flatten = pages) ∧
    (createNUpSheets [10, 20, 30, 40, 50] .four none).length = 2 ∧
    ((createNUpSheets [10, 20, 30, 40, 50] .four none).getD 1 []).length = 1 ∧
    pagesPerSheet .four
        - ((createNUpSheets [10, 20, 30, 40, 50] .four none).getD 1 []).length = 3 := by
  have hconc : createNUpSheets [10, 20, 30, 40, 50] .four none = [[10, 20, 30, 40], [50]] := by
    have h : (basePages ([10, 20, 30, 40, 50] : List Nat).length none).map
        (fun i => ([10, 20, 30, 40, 50] : List Nat).getD (i - 1).toNat 0)
          = [10, 20, 30, 40, 50] := by decide
    simp only [createNUpSheets, pagesPerSheet, h]
    simp [chunkPages]
  refine ⟨fun l pages => ⟨chunkPages_length _ (pagesPerSheet_pos l) pages,
    chunkPages_flatten _ (pagesPerSheet_pos l) pages⟩, ?_, ?_, ?_⟩ <;> rw [hconc] <;> rfl

/-- C7: within a sheet, cells are traversed row-major (column = position mod
columns, row = position div columns) on a 1 by 2 grid for 2-up and a 2 by 2
grid for 4-up; each page is drawn at uniform scale
`min(cellWidth/pageWidth, cellHeight/pageHeight) * 0.95`, centred in its
cell both horizontally and vertically; a smaller row index sits strictly
higher on the sheet, so row 0 is at the top. -/
theorem nup_cell_geometry :
    (∀ (l : NUp) (j : Nat) (pw ph : ℚ), 0 < pw → 0 < ph →
        (placeCell l j pw ph).col = j % cols l ∧
        (placeCell l j pw ph).row = j / cols l ∧
        (placeCell l j pw ph).scale
          = min (cellWidth l / pw) (cellHeight l / ph) * (95 / 100) ∧
        (placeCell l j pw ph).w = pw * (placeCell l j pw ph).scale ∧
        (placeCell l j pw ph).h = ph * (placeCell l j pw ph).scale ∧
        (placeCell l j pw ph).x - ((placeCell l j pw ph).col : ℚ) * cellWidth l
          = (((placeCell l j pw ph).col : ℚ) * cellWidth l + cellWidth l)
            - ((placeCell l j pw ph).x + (placeCell l j pw ph).w) ∧
        (placeCell l j pw ph).y
            - (sheetHeight - (((placeCell l j pw ph).row : ℚ) + 1) * cellHeight l)
          = ((sheetHeight - (((placeCell l j pw ph).row : ℚ) + 1) * cellHeight l)
              + cellHeight l)
            - ((placeCell l j pw ph).y + (placeCell l j pw ph).h)) ∧
    (cols .two = 2 ∧ rowsOf .two = 1 ∧ cols .four = 2 ∧ rowsOf .four = 2) ∧
    (∀ (l : NUp) (r1 r2 : Nat), r1 < r2 →
        sheetHeight - ((r2 : ℚ) + 1) * cellHeight l
          < sheetHeight - ((r1 : ℚ) + 1) * cellHeight l) := by
  refine ⟨?_, ⟨rfl, rfl, rfl, rfl⟩, ?_⟩
  · intro l j pw ph hw hh
    refine ⟨rfl, rfl, rfl, rfl, rfl, ?_, ?_⟩
    · simp only [placeCell]
      ring
    · simp only [placeCell]
      ring
  · intro l r1 r2 h
    have hch : 0 < cellHeight l := by
      cases l <;> norm_num [cellHeight, sheetHeight, rowsOf]
    have hr : ((r1 : ℚ) + 1) * cellHeight l < ((r2 : ℚ) + 1) * cellHeight l := by
      have hq : (r1 : ℚ) < (r2 : ℚ) := by exact_mod_cast h
      have := mul_lt_mul_of_pos_right (by linarith : (r1 : ℚ) + 1 < (r2 : ℚ) + 1) hch
      exact this
    linarith

theorem nup_cell_geometry_witness :
    (0 : ℚ) < 595 ∧ (0 : ℚ) < 842 ∧
    (placeCell .four 3 595 842).col = 3 % cols .four ∧
    (1 : Nat) < 2 ∧
    sheetHeight - ((2 : ℚ) + 1) * cellHeight .four
      < sheetHeight - ((1 : ℚ) + 1) * cellHeight .four := by
  refine ⟨by norm_num, by norm_num, (nup_cell_geometry.1 .four 3 595 842
    (by norm_num) (by norm_num)).1, by norm_num, ?_⟩
  have h := nup_cell_geometry.2.2 .four 1 2 (by norm_num)
  exact_mod_cast h

/-- C1: on a submission with `duplex = true` — whatever the layout setting —
the coordinator submits exactly the odd-parity pages of the
(range-restricted or full) page set, and records the job as
`awaiting-even-pages` with `currentStep = even` and `totalPages` taken from
the original unfiltered document. -/
theorem duplex_submission_awaits_even_pages :
    ∀ (doc : List Nat) (filename : String) (s : PrintSettings) (jobId : String)
      (jobs : JobTable),
      s.duplex = true →
      (handlePrint (some doc) filename s jobId true jobs).submitted
          = some ⟨Doc.plain (extractOddEvenPages doc .odd s.pageRange),
              "Print Job - " ++ filename, s.copies.getD 1⟩ ∧
      (∀ p : Int, p ∈ selectPages doc.length s.pageRange .odd ↔
          p ∈ basePages doc.length s.pageRange ∧ p % 2 = 1) ∧
      findJob (handlePrint (some doc) filename s jobId true jobs).jobs jobId
          = some ⟨jobId, .awaitingEvenPages,
              some "Odd pages sent to printer. Please flip the paper and print even pages.",
              some doc.length, some .even⟩ ∧
      (∀ l : Layout,
          handlePrint (some doc) filename { s with layout := l } jobId true jobs
            = handlePrint (some doc) filename s jobId true jobs) ∧
      (handlePrint (some doc) filename s jobId true jobs).result = .ok := by
  intro doc filename s jobId jobs hdup
  obtain ⟨d, lay, pr, cp⟩ := s
  simp only at hdup
  subst hdup
  refine ⟨rfl, ?_, ?_, fun l => rfl, rfl⟩
  · intro p
    exact mem_selectPages
  · simp only [handlePrint, if_true]
    exact findJob_setJob _ _ _

theorem duplex_submission_awaits_even_pages_witness :
    findJob (handlePrint (some [1, 2, 3]) "f.pdf" ⟨true, .twoUp, none, none⟩
        "j" true []).jobs "j"
      = some ⟨"j", .awaitingEvenPages,
          some "Odd pages sent to printer. Please flip the paper and print even pages.",
          some 3, some .even⟩ :=
  (duplex_submission_awaits_even_pages [1, 2, 3] "f.pdf" ⟨true, .twoUp, none, none⟩
    "j" [] rfl).2.2.1

/-- C2: a resume on a job id that is absent, or whose job is not in
`awaiting-even-pages`, fails with an error and returns the job table
unchanged; when the precondition holds and submission succeeds, the job
transitions to `completed`. -/
theorem resume_even_precondition :
    ∀ (file : Option (List Nat)) (jobId filename : String)
      (pageRange : Option String) (copies : Option Nat) (cupsOk : Bool)
      (jobs : JobTable),
      (findJob jobs jobId = none →
        handlePrintEven file jobId filename pageRange copies cupsOk jobs
          = ⟨jobs, none, .badRequest⟩) ∧
      (∀ job : PrintJob, findJob jobs jobId = some job →
        job.status ≠ .awaitingEvenPages →
        handlePrintEven file jobId filename pageRange copies cupsOk jobs
          = ⟨jobs, none, .badRequest⟩) ∧
      (∀ (doc : List Nat) (job : PrintJob), file = some doc →
        findJob jobs jobId = some job → job.status = .awaitingEvenPages →
        cupsOk = true →
        findJob (handlePrintEven file jobId filename pageRange copies cupsOk jobs).jobs
            jobId
          = some ⟨jobId, .completed, some "Duplex printing completed", none, none⟩ ∧
        (handlePrintEven file jobId filename pageRange copies cupsOk jobs).result
          = .ok) := by
  intro file jobId filename pageRange copies cupsOk jobs
  refine ⟨?_, ?_, ?_⟩
  · intro h
    simp only [handlePrintEven, h]
  · intro job hj hst
    simp only [handlePrintEven, hj]
    rw [if_neg hst]
  · intro doc job hf hj hst hc
    subst hf
    subst hc
    simp only [handlePrintEven, hj, if_pos hst]
    exact ⟨findJob_setJob _ _ _, rfl⟩

theorem resume_even_precondition_witness :
    handlePrintEven (some [1, 2]) "j" "f.pdf" none none true []
        = ⟨[], none, .badRequest⟩ ∧
    findJob (handlePrintEven (some [1, 2]) "j" "f.pdf" none none true
        [("j", ⟨"j", .awaitingEvenPages, none, none, none⟩)]).jobs "j"
      = some ⟨"j", .completed, some "Duplex printing completed", none, none⟩ :=
  ⟨(resume_even_precondition (some [1, 2]) "j" "f.pdf" none none true []).1 rfl,
   ((resume_even_precondition (some [1, 2]) "j" "f.pdf" none none true
      [("j", ⟨"j", .awaitingEvenPages, none, none, none⟩)]).2.2 [1, 2]
      ⟨"j", .awaitingEvenPages, none, none, none⟩ rfl (by decide) rfl rfl).1⟩

/-- C8, code bug: when the spooler submission of a duplex job fails, the
handler only reports a server error; the job it created stays in
`processing` (with the odd-pages message) instead of being marked
`failed`. -/
theorem failed_submission_leaves_job_processing :
    (handlePrint (some [1, 2]) "doc.pdf" ⟨true, .oneUp, none, none⟩
        "job-1" false []).result = .serverError ∧
    (findJob (handlePrint (some [1, 2]) "doc.pdf" ⟨true, .oneUp, none, none⟩
        "job-1" false []).jobs "job-1").map PrintJob.status = some .processing ∧
    JobStatus.processing ≠ JobStatus.failed := by
  refine ⟨rfl, by decide, by decide⟩

/-- C9 as stated is false: the resume handler extracts the even pages from
the range supplied in the resume request, not from the range of the
original duplex submission. Original submission of a 4-page document with
range "1-2"; resume with no range submits pages [2, 4], not the even pages
[2] of the original range. -/
theorem resume_even_range_counterexample :
    (handlePrintEven (some [10, 20, 30, 40]) "j1" "f.pdf" none none true
        (handlePrint (some [10, 20, 30, 40]) "f.pdf" ⟨true, .oneUp, some "1-2", none⟩
          "j1" true []).jobs).submitted
      = some ⟨Doc.plain [20, 40], "Print Job - f.pdf (Even Pages)", 1⟩ ∧
    extractOddEvenPages [10, 20, 30, 40] .even (some "1-2") = [20] ∧
    Doc.plain ([20, 40] : List Nat)
      ≠ Doc.plain (extractOddEvenPages [10, 20, 30, 40] .even (some "1-2")) := by
  refine ⟨by decide, by decide, by decide⟩

/-- C9 amended: on a successful resume, the even-pages document is
extracted from the page range supplied in the resume request (the
coordinator stores no range from the original submission), submitted under
the distinguishing job name `"Print Job - <filename> (Even Pages)"`, and
the job transitions to `completed`. -/
theorem resume_even_uses_request_range :
    ∀ (doc : List Nat) (jobId filename : String) (pageRange : Option String)
      (copies : Option Nat) (jobs : JobTable) (job : PrintJob),
      findJob jobs jobId = some job → job.status = .awaitingEvenPages →
      (handlePrintEven (some doc) jobId filename pageRange copies true jobs).submitted
          = some ⟨Doc.plain (extractOddEvenPages doc .even pageRange),
              "Print Job - " ++ filename ++ " (Even Pages)", copies.getD 1⟩ ∧
      "Print Job - " ++ filename ++ " (Even Pages)" ≠ "Print Job - " ++ filename ∧
      findJob (handlePrintEven (some doc) jobId filename pageRange copies true jobs).jobs
          jobId
        = some ⟨jobId, .completed, some "Duplex printing completed", none, none⟩ := by
  intro doc jobId filename pageRange copies jobs job hj hst
  refine ⟨?_, ?_, ?_⟩
  · simp only [handlePrintEven, hj, if_pos hst]
    rfl
  · intro h
    have hlen := congrArg String.length h
    have h13 : " (Even Pages)".length = 13 := by decide
    simp only [String.length_append, h13] at hlen
    omega
  · simp only [handlePrintEven, hj, if_pos hst]
    exact findJob_setJob _ _ _

theorem resume_even_uses_request_range_witness :
    (handlePrintEven (some [10, 20, 30, 40]) "j" "f.pdf" (some "1-4") none true
        [("j", ⟨"j", .awaitingEvenPages, none, none, none⟩)]).submitted
      = some ⟨Doc.plain (extractOddEvenPages [10, 20, 30, 40] .even (some "1-4")),
          "Print Job - " ++ "f.pdf" ++ " (Even Pages)", (none : Option Nat).getD 1⟩ :=
  (resume_even_uses_request_range [10, 20, 30, 40] "j" "f.pdf" (some "1-4") none
    [("j", ⟨"j", .awaitingEvenPages, none, none, none⟩)]
    ⟨"j", .awaitingEvenPages, none, none, none⟩ (by decide) rfl).1

end PrintWebapp
